import Mathlib

/-!
# Verification of the audio post-processing pipeline of `app.py`

Shallow embedding of the deterministic signal-processing logic in
`src/app.py` (Urdu voice-cloning app): reference-audio standardization
(`load_and_standardize`), post-synthesis processing
(`postprocess_rate_and_norm`), WAV encoding (`wav_bytes_from_array`) and
the run-button orchestration.

Sample buffers are lists of rational amplitudes (the Python code works on
float32 arrays; we use exact rationals, so every arithmetic identity of the
code holds exactly).  External library calls (librosa decode, resample,
trim, time-stretch; soundfile read/write) are not part of the repository;
each such call is embedded by a definition whose doc comment says what is
modelled and what is abstracted.  The control flow, constants, branch
conditions and stage order of `app.py` itself are translated line by line.

Maxima and absolute values inside the executable definitions are spelled
with the if-based `qmax` / `qabs` (proved equal to `max` / `|·|` below) so
that every definition evaluates by kernel reduction on concrete inputs.
-/

namespace UrduVoiceover

/-- The error taxonomy of the spec (section 7): decode failures of the
Signal Loader, non-positive rate/speed failures, and opaque failures of the
external synthesis collaborator. -/
inductive Err where
  | decodeError
  | invalidRateError
  | collaboratorError
  deriving DecidableEq, Repr

/-- Executable maximum on rationals. -/
def qmax (a b : ℚ) : ℚ := if a ≤ b then b else a

/-- Executable absolute value on rationals. -/
def qabs (a : ℚ) : ℚ := if a < 0 then -a else a

/-- `np.max(np.abs(y))` over a sample buffer (`app.py` line 100); empty
buffers give 0 (the normalization branch is only reached on decoded
buffers, but the model is total). -/
def maxAbs (y : List ℚ) : ℚ :=
  y.foldr (fun s m => qmax (qabs s) m) 0

/-- Maximum squared amplitude of a buffer (the per-sample power reference
used by the trim model below). -/
def maxSq (y : List ℚ) : ℚ :=
  y.foldr (fun s m => qmax (s * s) m) 0

/-- The normalization step of `postprocess_rate_and_norm`
(`app.py` lines 100-101): `peak = np.max(np.abs(y)) + 1e-9;
y = 0.98 * (y / peak)`. -/
def normalizeStage (y : List ℚ) : List ℚ :=
  y.map (fun s => 98 / 100 * (s / (maxAbs y + 1 / 1000000000)))

/-- Modelled from the spec: `librosa.effects.time_stretch` (called at
`app.py` line 98), the Rate Adjuster.  librosa rejects a non-positive rate
(`ParameterError`, the spec's `InvalidRateError`); otherwise it returns a
pitch-preserving stretch whose length is the input length divided by the
rate.  The phase-vocoder sample values are abstracted as nearest-input-
sample selection; no claim depends on them. -/
def time_stretch (y : List ℚ) (rate : ℚ) : Except Err (List ℚ) :=
  if rate ≤ 0 then .error .invalidRateError
  else .ok ((List.range ⌈(y.length : ℚ) / rate⌉₊).map
    (fun i => y.getD ⌊(i : ℚ) * rate⌋₊ 0))

/-- `postprocess_rate_and_norm` (`app.py` lines 93-102): time-stretch when
the rate is not exactly 1.0, then peak-normalize when `do_norm` is set.
The `sr` argument is part of the Python signature and, as there, unused.
The `astype(np.float32)` cast is the identity on our exact buffers. -/
def postprocess_rate_and_norm (wav : List ℚ) (sr : ℕ) (rate_factor : ℚ)
    (do_norm : Bool) : Except Err (List ℚ) := do
  let y := wav
  let y ← if rate_factor ≠ 1 then time_stretch y rate_factor else .ok y
  let y := if do_norm then normalizeStage y else y
  return y

/-- PCM-16 quantization of one sample: `soundfile.write` with
`format="WAV"` and float data uses the default `PCM_16` subtype, scaling by
32768, rounding to nearest and clipping to the int16 range. -/
def quantPCM16 (s : ℚ) : ℤ :=
  if round (s * 32768) < -32768 then -32768
  else if 32767 < round (s * 32768) then 32767
  else round (s * 32768)

/-- An encoded WAV byte stream: the container header is abstracted to the
sample-rate field; the payload is the PCM-16 data. -/
structure WavBytes where
  sampleRate : ℕ
  data : List ℤ
  deriving DecidableEq, Repr

/-- `wav_bytes_from_array` (`app.py` lines 104-108): serialize a sample
buffer at rate `sr` to WAV bytes (`sf.write(buf, y, sr, format="WAV")`,
PCM-16 by default). -/
def wav_bytes_from_array (y : List ℚ) (sr : ℕ) : WavBytes :=
  ⟨sr, y.map quantPCM16⟩

/-- Decoding the PCM-16 payload back to amplitudes (`sf.read` /
`librosa.load` both yield `value / 32768`). -/
def decodePCM16 (w : WavBytes) : List ℚ × ℕ :=
  (w.data.map (fun (v : ℤ) => (v : ℚ) / 32768), w.sampleRate)

/-- Modelled from the spec: the Signal Loader (`librosa.load` at `app.py`
line 81), which decodes an uploaded byte stream to a mono buffer at its
native rate and fails with `DecodeError` on an empty, malformed or
unsupported stream.  The byte stream is modelled as a minimal container:
first entry the sample rate, remaining entries offset-encoded PCM-16
values; empty input or a zero rate is malformed. -/
def load_audio (b : List ℕ) : Except Err (List ℚ × ℕ) :=
  match b with
  | [] => .error .decodeError
  | sr :: data =>
    if sr = 0 then .error .decodeError
    else .ok (data.map (fun v => ((v : ℚ) - 32768) / 32768), sr)

/-- Whether one sample counts as non-silent for `librosa.effects.trim`
with `top_db=30` (`app.py` line 86): librosa marks a frame non-silent when
`power_to_db(mse, ref=max_mse) > -30`, i.e.
`max(amin, mse) > max(amin, max_mse) / 1000` with `amin = 1e-10`.
Expressed on squared amplitudes this is exact rational arithmetic. -/
def nonSilent (refSq s : ℚ) : Bool :=
  decide (qmax (1 / 10000000000) refSq < 1000 * qmax (1 / 10000000000) (s * s))

/-- Drop the leading run of samples failing `p`. -/
def dropSilent (p : ℚ → Bool) : List ℚ → List ℚ
  | [] => []
  | a :: l => if p a then a :: l else dropSilent p l

/-- Modelled from the spec: `librosa.effects.trim(y, top_db=30)` (`app.py`
line 86), the Silence Trimmer.  It keeps the sub-range from the first to
the last non-silent position, where non-silence is relative to the
buffer's own maximum power with an `amin = 1e-10` floor (see `nonSilent`).
librosa's 2048-sample analysis frames are abstracted to single samples;
the threshold comparison, which is all the claims depend on, is kept
exactly. -/
def trim (y : List ℚ) : List ℚ :=
  dropSilent (nonSilent (maxSq y))
    ((dropSilent (nonSilent (maxSq y)) y.reverse).reverse)

/-- Modelled from the spec: `librosa.resample` (`app.py` line 84), the
Resampler.  Equal rates return the input unchanged (librosa
short-circuits); otherwise the duration is preserved (output length
`ceil(n * target / orig)`) and the bandlimited interpolation of the values
is abstracted as nearest-input-sample selection. -/
def resample (y : List ℚ) (orig_sr target_sr : ℕ) : List ℚ :=
  if orig_sr = target_sr then y
  else (List.range ((y.length * target_sr + orig_sr - 1) / orig_sr)).map
    (fun i => y.getD (i * orig_sr / target_sr) 0)

/-- The trimming stage of `load_and_standardize` as the repository defines
it (`app.py` lines 86-88): librosa trim followed by the fallback to the
untrimmed buffer when fewer than `target_sr` samples (one second) remain. -/
def trimStage (y : List ℚ) (target_sr : ℕ) : List ℚ :=
  if (trim y).length < target_sr then y else trim y

/-- The buffer-level body of `load_and_standardize` (`app.py` lines
84-88), applied to an already-decoded buffer `y` at native rate `sr`:
resample to `target_sr`, trim, and fall back to the untrimmed resampled
buffer if less than one second remains. -/
def load_and_standardize_core (y : List ℚ) (sr : ℕ)
    (target_sr : ℕ := 16000) : List ℚ :=
  let y_res := resample y sr target_sr
  let yt := trim y_res
  let yt := if yt.length < target_sr then y_res else yt
  yt

/-- `load_and_standardize` (`app.py` lines 79-91): decode the upload,
standardize the buffer, and write it as a 16 kHz WAV file for the
collaborator (`sf.write(tmp_wav.name, yt, target_sr)`).  The short-sample
`st.warning` at line 83 is advisory only and does not alter the data
path. -/
def load_and_standardize (audio_file : List ℕ) (target_sr : ℕ := 16000) :
    Except Err WavBytes := do
  let (y, sr) ← load_audio audio_file
  let yt := load_and_standardize_core y sr target_sr
  return wav_bytes_from_array yt target_sr

/-- The post-synthesis read-back of `app.py` lines 149-151: given the
decoded collaborator output `(y, sr)`, post-process and re-encode at the
decoded rate (`sf.read` then `postprocess_rate_and_norm` then
`wav_bytes_from_array(y, sr)`). -/
def post_and_encode (y : List ℚ) (sr : ℕ) (rate_factor : ℚ)
    (do_norm : Bool) : Except Err WavBytes := do
  let y2 ← postprocess_rate_and_norm y sr rate_factor do_norm
  return wav_bytes_from_array y2 sr

/-- The whole pipeline of one generate click (`app.py` lines 119-151):
standardize the reference upload, hand it to the external synthesis
collaborator (whose outcome is the oracle `tts`, covering network, model
and quota failures), read the result back and post-process it.  Any raised
stage error propagates (the Python `try` block). -/
def clone_pipeline (refBytes : List ℕ) (tts : WavBytes → Except Err WavBytes)
    (rate_factor : ℚ) (do_norm : Bool) : Except Err WavBytes := do
  let refWav ← load_and_standardize refBytes
  let outWav ← tts refWav
  let (y, sr) := decodePCM16 outWav
  post_and_encode y sr rate_factor do_norm

/-- Python's `text.strip()` on the typed text (`app.py` line 114),
modelled on a character list. -/
def stripText (t : List Char) : List Char :=
  ((t.dropWhile Char.isWhitespace).reverse.dropWhile Char.isWhitespace).reverse

/-- The run-button handler (`app.py` lines 113-167).  The session state
(`audio_bytes` + `preview_sr`) is the stored result of the previous
successful run.  Empty text or a missing upload shows a warning and leaves
the state alone; a pipeline failure is caught by the `except` branch which
shows exactly one `st.error` summary; only a fully successful run replaces
the stored result (lines 154-155).  The returned list is the error
summaries shown during this invocation. -/
def run_handler (sess : Option WavBytes) (text : List Char)
    (ref : Option (List ℕ)) (tts : WavBytes → Except Err WavBytes)
    (rate_factor : ℚ) (do_norm : Bool) : Option WavBytes × List Err :=
  if stripText text = [] then (sess, [])
  else
    match ref with
    | none => (sess, [])
    | some b =>
      match clone_pipeline b tts rate_factor do_norm with
      | .error e => (sess, [e])
      | .ok w => (some w, [])

/-- The pre-synthesis standardization in the order the spec's section 4.7
states it (claim C2): Silence Trimmer first, then Resampler to the
collaborator's 16 kHz rate.  This follows the spec's words, to be compared
with `load_and_standardize_core`, which follows the code. -/
def spec_order_standardize (y : List ℚ) (sr : ℕ)
    (target_sr : ℕ := 16000) : List ℚ :=
  resample (trim y) sr target_sr

/-! ## Helper lemmas -/

theorem qmax_eq_max (a b : ℚ) : qmax a b = max a b := by
  unfold qmax
  rw [max_def]

theorem qabs_eq_abs (a : ℚ) : qabs a = |a| := by
  unfold qabs
  split_ifs with h
  · exact (abs_of_neg h).symm
  · exact (abs_of_nonneg (not_lt.mp h)).symm

theorem maxAbs_nonneg (y : List ℚ) : 0 ≤ maxAbs y := by
  induction y with
  | nil => simp [maxAbs]
  | cons a l ih =>
    simp only [maxAbs, List.foldr, qmax_eq_max, qabs_eq_abs] at *
    exact le_max_of_le_right ih

theorem maxAbs_map_mul (c : ℚ) (hc : 0 ≤ c) (y : List ℚ) :
    maxAbs (y.map (fun s => c * s)) = c * maxAbs y := by
  induction y with
  | nil => simp [maxAbs]
  | cons a l ih =>
    simp only [maxAbs, List.map_cons, List.foldr, qmax_eq_max,
      qabs_eq_abs] at *
    rw [ih, abs_mul, abs_of_nonneg hc, mul_max_of_nonneg _ _ hc]

theorem maxSq_le (y : List ℚ) (c : ℚ) (hc : 0 ≤ c)
    (h : ∀ s ∈ y, s * s ≤ c) : maxSq y ≤ c := by
  induction y with
  | nil => simpa [maxSq] using hc
  | cons a l ih =>
    simp only [maxSq, List.foldr, qmax_eq_max] at *
    exact max_le (h a (by simp)) (ih (fun s hs => h s (by simp [hs])))

theorem dropSilent_eq_self (p : ℚ → Bool) (l : List ℚ)
    (h : ∀ s ∈ l, p s = true) : dropSilent p l = l := by
  cases l with
  | nil => rfl
  | cons a t => simp [dropSilent, h a (by simp)]

theorem trim_eq_self_of_forall (y : List ℚ)
    (h : ∀ s ∈ y, nonSilent (maxSq y) s = true) : trim y = y := by
  unfold trim
  rw [dropSilent_eq_self _ _ (fun s hs => h s (List.mem_reverse.mp hs)),
    List.reverse_reverse, dropSilent_eq_self _ _ h]

theorem quant_roundtrip (s : ℚ) (h : |s| ≤ 1) :
    |(quantPCM16 s : ℚ) / 32768 - s| ≤ 1 / 32768 := by
  obtain ⟨hlo, hhi⟩ := abs_le.mp h
  obtain ⟨hr1, hr2⟩ := abs_le.mp (abs_sub_round (s * 32768))
  unfold quantPCM16
  by_cases hneg : round (s * 32768) < -32768
  · exfalso
    have h1 : round (s * 32768) ≤ -32769 := by omega
    have h2 : ((round (s * 32768) : ℤ) : ℚ) ≤ -32769 := by exact_mod_cast h1
    linarith
  · by_cases hpos : 32767 < round (s * 32768)
    · rw [if_neg hneg, if_pos hpos]
      have h1 : (32768 : ℤ) ≤ round (s * 32768) := by omega
      have h2 : (32768 : ℚ) ≤ ((round (s * 32768) : ℤ) : ℚ) := by
        exact_mod_cast h1
      have hs1 : (32767 : ℚ) / 32768 ≤ s := by linarith
      rw [abs_of_nonpos (by push_cast; linarith)]
      push_cast
      linarith
    · rw [if_neg hneg, if_neg hpos]
      rw [abs_sub_comm]
      have heq : s - ((round (s * 32768) : ℤ) : ℚ) / 32768 =
          (s * 32768 - round (s * 32768)) / 32768 := by
        push_cast
        ring
      rw [heq, abs_div, abs_of_pos (by norm_num : (0 : ℚ) < 32768),
        div_le_div_iff (by norm_num) (by norm_num)]
      have habs : |s * 32768 - ((round (s * 32768) : ℤ) : ℚ)| ≤ 1 / 2 :=
        abs_sub_round (s * 32768)
      linarith

/-! ## Claims -/

/-- C1, counterexample to the claim as stated: the buffer containing the
single sample 1e-9 is not all-zero, yet normalization yields peak 49/100,
not 0.98 within tolerance — the 1e-9 epsilon in the peak divisor is not
negligible against a tiny input peak. -/
theorem C1_counterexample :
    ¬ (∀ s ∈ [(1 : ℚ) / 1000000000], s = 0) ∧
      1 / 1000000 <
        |maxAbs (normalizeStage [(1 : ℚ) / 1000000000]) - 98 / 100| := by
  constructor
  · intro hall
    have := hall (1 / 1000000000) (by simp)
    norm_num at this
  · have hval : maxAbs (normalizeStage [(1 : ℚ) / 1000000000]) = 49 / 100 := by
      norm_num [normalizeStage, maxAbs, qabs, qmax]
    rw [hval, show (49 : ℚ) / 100 - 98 / 100 = -(49 / 100) by norm_num,
      abs_neg, abs_of_nonneg (by norm_num : (0 : ℚ) ≤ 49 / 100)]
    norm_num

/-- C1 (amended): an all-zero buffer normalizes to itself, and the
normalized peak is within 1e-6 of the 0.98 ceiling whenever the input peak
is at least 1e-3 (in general the output peak is 0.98·M/(M+1e-9), slightly
below 0.98, so a tolerance requires a lower bound on the input peak M). -/
theorem C1_normalizer_amended (y : List ℚ) :
    ((∀ s ∈ y, s = 0) → normalizeStage y = y) ∧
      (1 / 1000 ≤ maxAbs y →
        |maxAbs (normalizeStage y) - 98 / 100| ≤ 1 / 1000000) := by
  constructor
  · intro hall
    unfold normalizeStage
    calc y.map (fun s => 98 / 100 * (s / (maxAbs y + 1 / 1000000000)))
        = y.map id := by
          apply List.map_congr_left
          intro s hs
          rw [hall s hs]
          simp
      _ = y := List.map_id y
  · intro hM
    have hpos : (0 : ℚ) < maxAbs y + 1 / 1000000000 := by linarith
    have hrw : normalizeStage y =
        y.map (fun s => (98 / 100 / (maxAbs y + 1 / 1000000000)) * s) := by
      unfold normalizeStage
      apply List.map_congr_left
      intro s _
      ring
    rw [hrw, maxAbs_map_mul _ (by positivity) y]
    set M := maxAbs y with hMdef
    set c : ℚ := 98 / 100 / (M + 1 / 1000000000) with hc
    have hcm : c * (M + 1 / 1000000000) = 98 / 100 :=
      div_mul_cancel₀ _ (ne_of_gt hpos)
    have hc_nonneg : 0 ≤ c := by positivity
    have hc_le : c ≤ 980 := by
      rw [hc, div_le_iff hpos]
      linarith
    have key : c * M - 98 / 100 = -(c * (1 / 1000000000)) := by
      rw [← hcm]
      ring
    rw [key, abs_neg, abs_of_nonneg (by positivity)]
    nlinarith

/-- C1, witness: an all-zero buffer maps to itself, and the spec's own
scenario (peak 1/2) lands within 1e-6 of 0.98. -/
theorem C1_witness :
    normalizeStage [(0 : ℚ), 0] = [(0 : ℚ), 0] ∧
      |maxAbs (normalizeStage [(1 : ℚ) / 2]) - 98 / 100| ≤ 1 / 1000000 :=
  ⟨(C1_normalizer_amended [0, 0]).1 (by simp),
    (C1_normalizer_amended [(1 : ℚ) / 2]).2
      (by norm_num [maxAbs, qabs, qmax])⟩

/-- C2, counterexample to the claimed stage order: on the decoded buffer
[0, 1] at native rate 32000, the code's pipeline (resample to 16 kHz,
then trim, then the one-second fallback) yields [0], while the spec's
claimed order (trim, then resample) yields [1]. -/
theorem C2_counterexample :
    load_and_standardize_core [0, 1] 32000 ≠
      spec_order_standardize [0, 1] 32000 := by
  have e1 : resample [(0 : ℚ), 1] 32000 16000 = [0] := by
    norm_num [resample, List.range_succ, List.getD]
  have e2 : trim [(0 : ℚ)] = [0] := by
    norm_num [trim, maxSq, qmax, nonSilent, dropSilent]
  have e3 : load_and_standardize_core [(0 : ℚ), 1] 32000 = [0] := by
    have hcore : load_and_standardize_core [(0 : ℚ), 1] 32000 =
        (if (trim (resample [(0 : ℚ), 1] 32000 16000)).length < 16000
          then resample [(0 : ℚ), 1] 32000 16000
          else trim (resample [(0 : ℚ), 1] 32000 16000)) := rfl
    rw [hcore, e1, e2]
    norm_num
  have e4 : trim [(0 : ℚ), 1] = [1] := by
    norm_num [trim, maxSq, qmax, nonSilent, dropSilent]
  have e5 : spec_order_standardize [(0 : ℚ), 1] 32000 = [1] := by
    rw [spec_order_standardize, e4]
    norm_num [resample, List.range_succ, List.getD]
  rw [e3, e5]
  simp

/-- C2 (amended): for every upload the Loader decodes, the pre-synthesis
pipeline applies its stages in the order Loader, then Resampler (to the
collaborator's 16 kHz rate), then Silence Trimmer (with its fallback to the
untrimmed resampled buffer when under one second remains), before
re-encoding the result at 16 kHz for the synthesis collaborator. -/
theorem C2_pipeline_order_amended (b : List ℕ) (y : List ℚ) (sr : ℕ)
    (h : load_audio b = .ok (y, sr)) :
    load_and_standardize b =
      .ok (wav_bytes_from_array (trimStage (resample y sr 16000) 16000)
        16000) := by
  simp [load_and_standardize, h, load_and_standardize_core, trimStage,
    Except.bind]

/-- C2, witness: a decodable one-sample upload at 16 kHz runs the amended
pipeline order end to end. -/
theorem C2_witness :
    load_and_standardize [16000, 32768] =
      .ok (wav_bytes_from_array (trimStage (resample [0] 16000 16000) 16000)
        16000) :=
  C2_pipeline_order_amended [16000, 32768] [0] 16000 (by
    norm_num [load_audio])

/-- C3: a buffer in which every sample's absolute amplitude is at most the
1e-4 silence threshold is returned unchanged by the trim stage — both by
librosa's trim itself (every sample of such a quiet buffer clears the
amin-floored relative power gate) and by the repository's trim-with-
fallback standardization — and no failure occurs (the stage is total). -/
theorem C3_trimmer_silent_noop (y : List ℚ)
    (h : ∀ s ∈ y, |s| ≤ 1 / 10000) :
    trim y = y ∧ load_and_standardize_core y 16000 = y := by
  have hsq : ∀ s ∈ y, s * s ≤ 1 / 100000000 := by
    intro s hs
    have habs := h s hs
    calc s * s = |s| * |s| := (abs_mul_abs_self s).symm
      _ ≤ 1 / 10000 * (1 / 10000) :=
          mul_le_mul habs habs (abs_nonneg s) (by norm_num)
      _ = 1 / 100000000 := by norm_num
  have hmax : maxSq y ≤ 1 / 100000000 := maxSq_le y _ (by norm_num) hsq
  have hns : ∀ s ∈ y, nonSilent (maxSq y) s = true := by
    intro s hs
    simp only [nonSilent, qmax_eq_max, decide_eq_true_eq]
    have h1 : max (1 / 10000000000) (maxSq y) ≤ 1 / 100000000 :=
      max_le (by norm_num) hmax
    have h2 : (1 / 10000000000 : ℚ) ≤ max (1 / 10000000000) (s * s) :=
      le_max_left _ _
    linarith
  have htrim : trim y = y := trim_eq_self_of_forall y hns
  refine ⟨htrim, ?_⟩
  have hcore : load_and_standardize_core y 16000 =
      (if (trim (resample y 16000 16000)).length < 16000
        then resample y 16000 16000 else trim (resample y 16000 16000)) :=
    rfl
  have hre : resample y 16000 16000 = y := by simp [resample]
  rw [hcore, hre, htrim, ite_self]

/-- C3, witness: the spec's scenario — a 2-second all-silent buffer at
16 kHz (32000 zero samples) passes through trimming unchanged. -/
theorem C3_witness :
    trim (List.replicate 32000 (0 : ℚ)) = List.replicate 32000 (0 : ℚ) ∧
      load_and_standardize_core (List.replicate 32000 (0 : ℚ)) 16000 =
        List.replicate 32000 (0 : ℚ) :=
  C3_trimmer_silent_noop _ (by
    intro s hs
    rw [List.eq_of_mem_replicate hs]
    norm_num)

/-- C4: for every buffer and every speed factor r ≤ 0, post-processing
fails with InvalidRateError (librosa rejects non-positive rates) and with
no other kind of failure, whatever the normalize flag. -/
theorem C4_invalid_rate (y : List ℚ) (sr : ℕ) (r : ℚ) (do_norm : Bool)
    (hr : r ≤ 0) :
    postprocess_rate_and_norm y sr r do_norm = .error .invalidRateError := by
  have h1 : r ≠ 1 := by
    intro hcon
    rw [hcon] at hr
    norm_num at hr
  simp [postprocess_rate_and_norm, h1, time_stretch, hr, Except.bind]

/-- C4, witness: speed factor 0 on a one-sample buffer fails with
InvalidRateError. -/
theorem C4_witness :
    postprocess_rate_and_norm [1] 16000 0 true = .error .invalidRateError :=
  C4_invalid_rate [1] 16000 0 true (by norm_num)

/-- C5: a speed factor of exactly 1.0 skips the time-stretch entirely:
with normalization off the buffer is returned unchanged, and with
normalization on the result is exactly the normalization of the unstretched
buffer. -/
theorem C5_rate_one_identity (y : List ℚ) (sr : ℕ) :
    postprocess_rate_and_norm y sr 1 false = .ok y ∧
      postprocess_rate_and_norm y sr 1 true = .ok (normalizeStage y) := by
  constructor <;> simp [postprocess_rate_and_norm, Except.bind]

/-- C6: when the pipeline of a generate click fails at any stage, the
handler leaves the stored session result unchanged and shows exactly one
error summary; the prior successful result therefore stays available. -/
theorem C6_failure_no_partial (sess : Option WavBytes) (text : List Char)
    (b : List ℕ) (tts : WavBytes → Except Err WavBytes) (r : ℚ)
    (dn : Bool) (e : Err) (htext : ¬ stripText text = [])
    (hfail : clone_pipeline b tts r dn = .error e) :
    run_handler sess text (some b) tts r dn = (sess, [e]) := by
  simp [run_handler, htext, hfail]

/-- C6, witness: with a stored prior result and an upload that fails to
decode, the failed run keeps the prior result and shows one DecodeError
summary. -/
theorem C6_witness :
    run_handler (some ⟨16000, [7]⟩) ['u', 'r'] (some [])
      (fun _ => .error .collaboratorError) 1 true =
      (some ⟨16000, [7]⟩, [.decodeError]) :=
  C6_failure_no_partial (some ⟨16000, [7]⟩) ['u', 'r'] []
    (fun _ => .error .collaboratorError) 1 true .decodeError
    (by decide) rfl

/-- C7: an empty byte stream makes the Loader fail with DecodeError (not a
crash, not a silent empty buffer), and the run handler catches it, keeps
its state and reports the single error summary instead of crashing. -/
theorem C7_empty_decode_error (sess : Option WavBytes) (text : List Char)
    (tts : WavBytes → Except Err WavBytes) (r : ℚ) (dn : Bool)
    (htext : ¬ stripText text = []) :
    load_audio [] = .error .decodeError ∧
      run_handler sess text (some []) tts r dn =
        (sess, [.decodeError]) := by
  refine ⟨rfl, ?_⟩
  have hcp : clone_pipeline [] tts r dn = .error .decodeError := rfl
  simp [run_handler, htext, hcp]

/-- C7, witness: concrete invocation with an empty upload. -/
theorem C7_witness :
    load_audio [] = .error .decodeError ∧
      run_handler none ['x'] (some []) (fun w => .ok w) 1 false =
        (none, [.decodeError]) :=
  C7_empty_decode_error none ['x'] (fun w => .ok w) 1 false (by decide)

/-- C8: encoding a valid buffer (amplitudes in [-1, 1]) through the WAV
path and decoding it back preserves the sample rate and the length and
reproduces every amplitude up to the PCM-16 quantization step 1/32768. -/
theorem C8_roundtrip (y : List ℚ) (sr : ℕ) (h : ∀ s ∈ y, |s| ≤ 1) :
    (decodePCM16 (wav_bytes_from_array y sr)).2 = sr ∧
      (decodePCM16 (wav_bytes_from_array y sr)).1.length = y.length ∧
      ∀ i, |(decodePCM16 (wav_bytes_from_array y sr)).1.getD i 0 -
        y.getD i 0| ≤ 1 / 32768 := by
  have hdata : (decodePCM16 (wav_bytes_from_array y sr)).1 =
      y.map (fun s => (quantPCM16 s : ℚ) / 32768) := by
    simp only [decodePCM16, wav_bytes_from_array, List.map_map]
    rfl
  refine ⟨rfl, ?_, ?_⟩
  · rw [hdata, List.length_map]
  · intro i
    rw [hdata]
    by_cases hi : i < y.length
    · have hlen : i < (y.map (fun s => (quantPCM16 s : ℚ) / 32768)).length := by
        rw [List.length_map]
        exact hi
      rw [List.getD_eq_get _ _ hlen, List.getD_eq_get _ _ hi, List.get_map]
      exact quant_roundtrip _ (h _ (y.get_mem _ _))
    · push_neg at hi
      rw [List.getD_eq_default _ _ (by rw [List.length_map]; exact hi),
        List.getD_eq_default _ _ hi]
      norm_num

/-- C8, witness: the buffer [1/2, -1] at 22050 Hz round-trips within
quantization. -/
theorem C8_witness :
    (decodePCM16 (wav_bytes_from_array [(1 : ℚ) / 2, -1] 22050)).2 = 22050 ∧
      (decodePCM16 (wav_bytes_from_array [(1 : ℚ) / 2, -1] 22050)).1.length
        = 2 ∧
      ∀ i, |(decodePCM16 (wav_bytes_from_array
        [(1 : ℚ) / 2, -1] 22050)).1.getD i 0 -
        [(1 : ℚ) / 2, -1].getD i 0| ≤ 1 / 32768 :=
  C8_roundtrip [(1 : ℚ) / 2, -1] 22050 (by
    intro s hs
    rcases List.mem_cons.mp hs with h | h
    · rw [h, abs_le]
      constructor <;> norm_num
    · rw [List.mem_singleton.mp h, abs_le]
      constructor <;> norm_num)

/-- C9: the standardized reference is the trimmed resampled buffer when at
least 16000 samples (one second at 16 kHz) survive trimming, and the
untrimmed resampled buffer otherwise; consequently the output is never
shorter than one second unless it is the untrimmed resampled buffer
itself. -/
theorem C9_trim_fallback (y : List ℚ) (sr : ℕ) :
    load_and_standardize_core y sr =
      (if (trim (resample y sr 16000)).length < 16000
        then resample y sr 16000 else trim (resample y sr 16000)) ∧
      (16000 ≤ (load_and_standardize_core y sr).length ∨
        load_and_standardize_core y sr = resample y sr 16000) := by
  have hcore : load_and_standardize_core y sr =
      (if (trim (resample y sr 16000)).length < 16000
        then resample y sr 16000 else trim (resample y sr 16000)) := rfl
  refine ⟨hcore, ?_⟩
  by_cases hlen : (trim (resample y sr 16000)).length < 16000
  · right
    rw [hcore, if_pos hlen]
  · left
    rw [hcore, if_neg hlen]
    omega

/-- C10: the final encoded output carries exactly the sample rate at which
the collaborator's output was decoded — post-processing is independent of
the rate argument (neither the time-stretch nor the normalization reads
it), and the encoder stamps the decoded rate unchanged. -/
theorem C10_sample_rate_preserved (y : List ℚ) (sr sr2 : ℕ) (r : ℚ)
    (dn : Bool) (w : WavBytes)
    (h : post_and_encode y sr r dn = .ok w) :
    w.sampleRate = sr ∧
      postprocess_rate_and_norm y sr r dn =
        postprocess_rate_and_norm y sr2 r dn := by
  refine ⟨?_, rfl⟩
  unfold post_and_encode at h
  cases hp : postprocess_rate_and_norm y sr r dn with
  | error e =>
    rw [hp] at h
    change Except.error e = Except.ok w at h
    exact Except.noConfusion h
  | ok y2 =>
    rw [hp] at h
    change Except.ok (wav_bytes_from_array y2 sr) = Except.ok w at h
    cases h
    rfl

/-- C10, witness: a concrete successful post-processing at 24000 Hz keeps
the rate 24000 on the encoded output, and the rate argument is inert. -/
theorem C10_witness :
    (WavBytes.mk 24000 [0]).sampleRate = 24000 ∧
      postprocess_rate_and_norm [(0 : ℚ)] 24000 1 false =
        postprocess_rate_and_norm [(0 : ℚ)] 8000 1 false :=
  C10_sample_rate_preserved [(0 : ℚ)] 24000 8000 1 false
    ⟨24000, [0]⟩ (by
      have hq : quantPCM16 0 = 0 := by
        norm_num [quantPCM16]
      simp [post_and_encode, postprocess_rate_and_norm,
        wav_bytes_from_array, hq, Except.bind])

end UrduVoiceover
